import Mathlib

/-!
Verification of the zoom-adaptive station clustering and marker pipeline of
`src/client/src/components/Map.tsx` (the `MapView` component).

The TypeScript source is shallowly embedded: JavaScript numbers are modelled
as exact rationals (`ℚ`), the `Set<string>` of processed ids as a
`List String` queried by membership, and the DOM / Naver-maps side effects
are reduced to the pure data that drives them (marker lists, click payloads,
visual descriptors).  `Math.sqrt(d2) < t` on nonnegative reals is equivalent
to `0 < t ∧ d2 < t ^ 2`, which is how the distance test is embedded
(the equivalence with the real-number square root is proved below).
-/

/-- Coordinate pair, as used by `cluster.position = { lat, lng }`. -/
structure LatLng where
  lat : ℚ
  lng : ℚ
deriving DecidableEq, Repr, Inhabited

/-- The station record (type `ChargingStation` from `@/lib/data`); the fields
are the ones read by `Map.tsx`: `id`, `lat`, `lng`, `status` (one of the
strings "available" / "partial" / "occupied"), `availableSlots`, `name`. -/
structure ChargingStation where
  id : String
  lat : ℚ
  lng : ℚ
  status : String
  availableSlots : ℕ
  name : String
deriving DecidableEq, Repr, Inhabited

/-- The cluster record built by `clusterStations`. -/
structure Cluster where
  position : LatLng
  stations : List ChargingStation
  availableStationCount : ℕ
deriving DecidableEq, Repr, Inhabited

/-- `const clusterRadiusPixels = 50;` — declared in `clusterStations` and
never read afterwards. -/
def clusterRadiusPixels : ℕ := 50

/-- `const distanceThreshold = (15 - zoom) * 0.006 + 0.006;` -/
def distanceThreshold (zoom : ℚ) : ℚ := (15 - zoom) * 0.006 + 0.006

/-- Squared planar distance in degree-space:
`Math.pow(aLat - bLat, 2) + Math.pow(aLng - bLng, 2)`. -/
def dist2 (aLat aLng bLat bLng : ℚ) : ℚ := (aLat - bLat) ^ 2 + (aLng - bLng) ^ 2

/-- The source's `Math.sqrt(dist2) < distanceThreshold` test.  Over the reals
`√d ≥ 0`, so the comparison holds iff the threshold is positive and the
squared distance is below the squared threshold; that equivalent square-free
form is used so the test stays decidable over `ℚ`
(see `withinThreshold_iff_sqrt`). -/
def withinThreshold (station otherStation : ChargingStation) (zoom : ℚ) : Bool :=
  decide (0 < distanceThreshold zoom ∧
    dist2 station.lat station.lng otherStation.lat otherStation.lng
      < distanceThreshold zoom ^ 2)

/-- The freshly seeded cluster of `clusterStations`:
`{ position: { lat: station.lat, lng: station.lng }, stations: [station],
availableStationCount: station.status !== "occupied" ? 1 : 0 }`. -/
def seedCluster (station : ChargingStation) : Cluster :=
  { position := { lat := station.lat, lng := station.lng },
    stations := [station],
    availableStationCount := if station.status ≠ "occupied" then 1 else 0 }

/-- One iteration of the inner `stationsToCluster.forEach((otherStation) => …)`
loop of `clusterStations`: skip processed candidates, and absorb a candidate
whose distance from the (original) seed `station` is below the threshold,
pushing it, counting it when not occupied, marking it processed, and updating
the running-mean centroid (`n` is the length *after* the push, exactly as in
the source). -/
def innerStep (station : ChargingStation) (zoom : ℚ)
    (acc : Cluster × List String) (otherStation : ChargingStation) :
    Cluster × List String :=
  let cluster := acc.1
  let processed := acc.2
  if otherStation.id ∈ processed then acc
  else if withinThreshold station otherStation zoom then
    let sts := cluster.stations ++ [otherStation]
    let n : ℚ := (sts.length : ℚ)
    ({ position :=
        { lat := (cluster.position.lat * (n - 1) + otherStation.lat) / n,
          lng := (cluster.position.lng * (n - 1) + otherStation.lng) / n },
       stations := sts,
       availableStationCount := cluster.availableStationCount +
         (if otherStation.status ≠ "occupied" then 1 else 0) },
     otherStation.id :: processed)
  else acc

/-- One iteration of the outer `stationsToCluster.forEach((station) => …)`
loop of `clusterStations`: skip processed stations, otherwise seed a cluster,
mark the seed processed, run the inner scan over the whole input list, and
append the finished cluster. -/
def outerStep (stationsToCluster : List ChargingStation) (zoom : ℚ)
    (acc : List Cluster × List String) (station : ChargingStation) :
    List Cluster × List String :=
  let clusters := acc.1
  let processed := acc.2
  if station.id ∈ processed then acc
  else
    let r := stationsToCluster.foldl (innerStep station zoom)
      (seedCluster station, station.id :: processed)
    (clusters ++ [r.1], r.2)

/-- The complete run of both `forEach` loops of `clusterStations`, returning
the cluster list together with the final processed set. -/
def clusterRun (stationsToCluster : List ChargingStation) (zoom : ℚ) :
    List Cluster × List String :=
  stationsToCluster.foldl (outerStep stationsToCluster zoom) ([], [])

/-- `clusterStations(stationsToCluster, map, zoom)`.  The `map` argument is
accepted (with the `any` type of the source modelled as an arbitrary type
`α`) and, like `clusterRadiusPixels`, never used. -/
def clusterStations {α : Type} (stationsToCluster : List ChargingStation)
    (map : α) (zoom : ℚ) : List Cluster :=
  (stationsToCluster.foldl (outerStep stationsToCluster zoom) ([], [])).1

/-- The data computed by `createClusterMarkerContent`: the zoom-dependent
pixel size, the key into `STATUS_COLORS` chosen by the availability logic,
and the badge text (the available-station count).  The DOM nodes built from
these data are visual styling, out of scope. -/
structure ClusterMarkerContent where
  size : ℕ
  colorKey : String
  badgeText : ℕ
deriving DecidableEq, Repr, Inhabited

/-- `createClusterMarkerContent(availableStationCount, totalStationCount,
zoom)`: size 36 for `zoom ≥ 12`, 32 for `zoom ≥ 11`, else 28; colors
`occupied` when the available count is 0, `partial` when it is ≤ 2 or below
30% of the total, `available` otherwise; the badge shows the available
count.  JavaScript float division is modelled as exact rational division
(they agree on every comparison reachable from a real cluster, where
`1 ≤ availableStationCount ≤ totalStationCount` stay tiny). -/
def createClusterMarkerContent (availableStationCount totalStationCount : ℕ)
    (zoom : ℚ) : ClusterMarkerContent :=
  let size : ℕ := if 12 ≤ zoom then 36 else if 11 ≤ zoom then 32 else 28
  let colorKey : String :=
    if availableStationCount = 0 then "occupied"
    else if availableStationCount ≤ 2 ∨
        ((availableStationCount : ℚ) / (totalStationCount : ℚ) < 0.3) then "partial"
    else "available"
  { size := size, colorKey := colorKey, badgeText := availableStationCount }

/-- A rendered marker: either an individual station marker (zoom ≥ 14) or a
cluster marker (zoom < 14). -/
inductive Marker where
  | individual (station : ChargingStation)
  | clusterMarker (cluster : Cluster)
deriving DecidableEq, Repr

/-- The marker set produced by one `addMarkers(map, zoom)` render pass
(`stations` is the component prop the closure reads).  Individual mode maps
every station to a marker; cluster mode drops fully-occupied clusters
(`if (cluster.availableStationCount === 0) return;`). -/
def addMarkers {α : Type} (stations : List ChargingStation) (map : α)
    (zoom : ℚ) : List Marker :=
  if 14 ≤ zoom then
    stations.map Marker.individual
  else if stations.length = 0 then []
  else
    ((clusterStations stations map zoom).filter
      (fun cluster => cluster.availableStationCount != 0)).map Marker.clusterMarker

/-- Payload delivered by a marker click: a single station or a station list. -/
inductive ClickPayload where
  | station (s : ChargingStation)
  | stationList (l : List ChargingStation)
deriving DecidableEq, Repr

/-- Observable effect of a marker "click": what `onStationClick` receives
(`none` when it is not invoked) and the `detail` of the `CustomEvent`
dispatched on `window` (`naver-marker-click` / `naver-cluster-click`). -/
structure ClickEffect where
  callback : Option ClickPayload
  broadcast : ClickPayload
deriving DecidableEq, Repr

/-- The click listener wired to each marker.  Individual markers call
`onStationClick(station)` and broadcast the station; cluster markers call
`onStationClick(cluster.stations[0])` only when the cluster has exactly one
member, and always broadcast the member list. -/
def markerClick : Marker → ClickEffect
  | Marker.individual s =>
      { callback := some (ClickPayload.station s),
        broadcast := ClickPayload.station s }
  | Marker.clusterMarker c =>
      { callback :=
          if c.stations.length = 1 then some (ClickPayload.station c.stations.headI)
          else none,
        broadcast := ClickPayload.stationList c.stations }

/-- All member lists of a cluster list, concatenated in order. -/
def membersJoin (clusters : List Cluster) : List ChargingStation :=
  (clusters.map Cluster.stations).flatten

/-- Concrete station: id "a" at the origin, available. -/
def stA : ChargingStation :=
  { id := "a", lat := 0, lng := 0, status := "available",
    availableSlots := 2, name := "A" }

/-- Concrete station: id "b" very close to `stA`, available. -/
def stB : ChargingStation :=
  { id := "b", lat := 0.001, lng := 0, status := "available",
    availableSlots := 3, name := "B" }

/-- Concrete station: id "c" far from the others, available. -/
def stC : ChargingStation :=
  { id := "c", lat := 1, lng := 1, status := "available",
    availableSlots := 1, name := "C" }

/-- Concrete station: id "d" close to `stA`, occupied. -/
def stD : ChargingStation :=
  { id := "d", lat := 0, lng := 0.001, status := "occupied",
    availableSlots := 0, name := "D" }

/-- The cluster that `clusterStations [stA, stB, stC] map 10` builds from the
seed `stA` absorbing `stB` (centroid (0.0005, 0)). -/
def clAB : Cluster := Cluster.mk (LatLng.mk 0.0005 0) [stA, stB] 2

/-- The singleton cluster of `stC` in `clusterStations [stA, stB, stC] map 10`. -/
def clC : Cluster := Cluster.mk (LatLng.mk 1 1) [stC] 1

/-- The invariant package maintained by the outer loop of `clusterStations`
over the state `(clusters, processed)` for input `all` at zoom `z`. -/
structure ClusterInv (all : List ChargingStation) (z : ℚ)
    (clusters : List Cluster) (p : List String) : Prop where
  mem_processed : ∀ x : String, x ∈ p ↔ x ∈ (membersJoin clusters).map ChargingStation.id
  join_subset : ∀ st ∈ membersJoin clusters, st ∈ all
  join_nodup : ((membersJoin clusters).map ChargingStation.id).Nodup
  members_ne : ∀ c ∈ clusters, c.stations ≠ []
  acount : ∀ c ∈ clusters,
    c.availableStationCount = c.stations.countP (fun st => decide (st.status ≠ "occupied"))
  centroidLat : ∀ c ∈ clusters,
    c.position.lat * (c.stations.length : ℚ) = (c.stations.map ChargingStation.lat).sum
  centroidLng : ∀ c ∈ clusters,
    c.position.lng * (c.stations.length : ℚ) = (c.stations.map ChargingStation.lng).sum
  seedw : ∀ c ∈ clusters, ∀ st ∈ c.stations,
    st = c.stations.headI ∨ withinThreshold c.stations.headI st z = true
  seed_pairwise : List.Pairwise
    (fun c d => withinThreshold c.stations.headI d.stations.headI z = false) clusters
  maximal : ∀ c ∈ clusters, ∀ w ∈ all, w.id ∉ p →
    withinThreshold c.stations.headI w z = false

/-- The head of a nonempty list (with `Inhabited` default) is a member. -/
theorem headI_mem {l : List ChargingStation} (h : l ≠ []) : l.headI ∈ l := by
  cases l with
  | nil => exact absurd rfl h
  | cons a t => exact List.mem_cons_self a t

/-- The decidable square-comparison test `withinThreshold` coincides with the
source's `Math.sqrt(…) < (15 - zoom) * 0.006 + 0.006` over the real
numbers. -/
theorem withinThreshold_iff_sqrt (s o : ChargingStation) (z : ℚ) :
    withinThreshold s o z = true ↔
      Real.sqrt (((s.lat : ℝ) - (o.lat : ℝ)) ^ 2 + ((s.lng : ℝ) - (o.lng : ℝ)) ^ 2)
        < (15 - (z : ℝ)) * 0.006 + 0.006 := by
  rw [withinThreshold, decide_eq_true_iff]
  have hthr : ((distanceThreshold z : ℚ) : ℝ) = (15 - (z : ℝ)) * 0.006 + 0.006 := by
    unfold distanceThreshold
    push_cast
    norm_num
  have hd2 : ((dist2 s.lat s.lng o.lat o.lng : ℚ) : ℝ)
      = ((s.lat : ℝ) - (o.lat : ℝ)) ^ 2 + ((s.lng : ℝ) - (o.lng : ℝ)) ^ 2 := by
    unfold dist2
    push_cast
    ring
  constructor
  · rintro ⟨ht, hlt⟩
    rw [← hd2, ← hthr]
    have ht' : (0 : ℝ) < ((distanceThreshold z : ℚ) : ℝ) := by exact_mod_cast ht
    rw [Real.sqrt_lt' ht']
    exact_mod_cast hlt
  · intro h
    by_cases ht : 0 < distanceThreshold z
    · refine ⟨ht, ?_⟩
      have ht' : (0 : ℝ) < ((distanceThreshold z : ℚ) : ℝ) := by exact_mod_cast ht
      rw [← hd2, ← hthr, Real.sqrt_lt' ht'] at h
      exact_mod_cast h
    · exfalso
      have h0 : ((distanceThreshold z : ℚ) : ℝ) ≤ 0 := by
        exact_mod_cast not_lt.mp ht
      have hnn := Real.sqrt_nonneg
        (((s.lat : ℝ) - (o.lat : ℝ)) ^ 2 + ((s.lng : ℝ) - (o.lng : ℝ)) ^ 2)
      rw [← hthr] at h
      linarith

/-- Inner-loop reduction: an already-processed candidate changes nothing. -/
theorem innerStep_skip (station : ChargingStation) (zoom : ℚ)
    {c : Cluster} {p : List String} {x : ChargingStation} (h : x.id ∈ p) :
    innerStep station zoom (c, p) x = (c, p) := by
  simp [innerStep, h]

/-- Inner-loop reduction: an unprocessed candidate outside the distance
threshold changes nothing. -/
theorem innerStep_far (station : ChargingStation) (zoom : ℚ)
    {c : Cluster} {p : List String} {x : ChargingStation} (h1 : x.id ∉ p)
    (h2 : withinThreshold station x zoom = false) :
    innerStep station zoom (c, p) x = (c, p) := by
  simp [innerStep, h1, h2]

/-- Inner-loop reduction: an unprocessed candidate within the distance
threshold is pushed, counted and marked processed, and the centroid becomes
the updated running mean. -/
theorem innerStep_absorb (station : ChargingStation) (zoom : ℚ)
    {c : Cluster} {p : List String} {x : ChargingStation} (h1 : x.id ∉ p)
    (h2 : withinThreshold station x zoom = true) :
    innerStep station zoom (c, p) x =
      (Cluster.mk
        (LatLng.mk
          ((c.position.lat * (((c.stations.length : ℚ) + 1) - 1) + x.lat) / ((c.stations.length : ℚ) + 1))
          ((c.position.lng * (((c.stations.length : ℚ) + 1) - 1) + x.lng) / ((c.stations.length : ℚ) + 1)))
        (c.stations ++ [x])
        (c.availableStationCount + (if x.status ≠ "occupied" then 1 else 0)),
       x.id :: p) := by
  simp [innerStep, h1, h2]

/-- Claim C1: during the inner scan of `clusterStations`, a not-yet-processed
candidate is added to the current cluster iff the planar Euclidean distance in
degree-space between the original seed station's coordinates and the candidate
is strictly below `(15 - zoom) * 0.006 + 0.006`; the distance is measured from
the seed (`station`), not from the evolving centroid. -/
theorem clusterStations_seed_distance_rule (station otherStation : ChargingStation)
    (zoom : ℚ) (cluster : Cluster) (processed : List String)
    (h : otherStation.id ∉ processed) :
    (innerStep station zoom (cluster, processed) otherStation).1.stations
        = cluster.stations ++ [otherStation] ↔
      Real.sqrt (((station.lat : ℝ) - (otherStation.lat : ℝ)) ^ 2
          + ((station.lng : ℝ) - (otherStation.lng : ℝ)) ^ 2)
        < (15 - (zoom : ℝ)) * 0.006 + 0.006 := by
  rw [← withinThreshold_iff_sqrt]
  cases hw : withinThreshold station otherStation zoom with
  | true =>
    rw [innerStep_absorb station zoom h hw]
    exact iff_of_true rfl rfl
  | false =>
    rw [innerStep_far station zoom h hw]
    refine iff_of_false ?_ (by simp [hw])
    intro heq
    have hlen := congrArg List.length heq
    simp at hlen

/-- Witness for C1 at a concrete instance. -/
theorem clusterStations_seed_distance_rule_witness :
    (innerStep stA 10 (seedCluster stA, ["a"]) stB).1.stations
        = (seedCluster stA).stations ++ [stB] ↔
      Real.sqrt (((stA.lat : ℝ) - (stB.lat : ℝ)) ^ 2
          + ((stA.lng : ℝ) - (stB.lng : ℝ)) ^ 2)
        < (15 - ((10 : ℚ) : ℝ)) * 0.006 + 0.006 :=
  clusterStations_seed_distance_rule stA stB 10 (seedCluster stA) ["a"] (by decide)

/-- Claim C3: the cluster color classification in
`createClusterMarkerContent` checks, in order: available count 0 gives
`occupied`; available count ≤ 2 or availability ratio < 0.3 gives `partial`;
otherwise `available` — including the four concrete instances
(0, 5) ↦ occupied, (1, 10) ↦ partial, (2, 3) ↦ partial, (8, 10) ↦ available. -/
theorem createClusterMarkerContent_classification
    (availableStationCount totalStationCount : ℕ) (zoom : ℚ)
    (ht : 0 < totalStationCount) :
    ((createClusterMarkerContent availableStationCount totalStationCount zoom).colorKey
        = "occupied" ↔ availableStationCount = 0) ∧
    ((createClusterMarkerContent availableStationCount totalStationCount zoom).colorKey
        = "partial" ↔ availableStationCount ≠ 0 ∧ (availableStationCount ≤ 2 ∨
          ((availableStationCount : ℚ) / (totalStationCount : ℚ) < 0.3))) ∧
    ((createClusterMarkerContent availableStationCount totalStationCount zoom).colorKey
        = "available" ↔ 2 < availableStationCount ∧
          ¬((availableStationCount : ℚ) / (totalStationCount : ℚ) < 0.3)) ∧
    (createClusterMarkerContent 0 5 zoom).colorKey = "occupied" ∧
    (createClusterMarkerContent 1 10 zoom).colorKey = "partial" ∧
    (createClusterMarkerContent 2 3 zoom).colorKey = "partial" ∧
    (createClusterMarkerContent 8 10 zoom).colorKey = "available" := by
  refine ⟨?_, ?_, ?_, by norm_num [createClusterMarkerContent],
    by norm_num [createClusterMarkerContent], by norm_num [createClusterMarkerContent],
    by norm_num [createClusterMarkerContent]⟩
  · simp only [createClusterMarkerContent]
    split_ifs with h0 h1 <;> simp_all
  · simp only [createClusterMarkerContent]
    split_ifs with h0 h1 <;> simp_all
  · simp only [createClusterMarkerContent]
    split_ifs with h0 h1 <;> simp_all
    intro hgt
    rcases h1 with h1 | h1
    · omega
    · exact h1

/-- Witness for C3 at available count 1, total 10, zoom 12. -/
theorem createClusterMarkerContent_classification_witness :
    ((createClusterMarkerContent 1 10 12).colorKey = "occupied" ↔ (1 : ℕ) = 0) ∧
    ((createClusterMarkerContent 1 10 12).colorKey = "partial" ↔ (1 : ℕ) ≠ 0 ∧
        ((1 : ℕ) ≤ 2 ∨ (((1 : ℕ) : ℚ) / ((10 : ℕ) : ℚ) < 0.3))) ∧
    ((createClusterMarkerContent 1 10 12).colorKey = "available" ↔ 2 < (1 : ℕ) ∧
        ¬(((1 : ℕ) : ℚ) / ((10 : ℕ) : ℚ) < 0.3)) ∧
    (createClusterMarkerContent 0 5 12).colorKey = "occupied" ∧
    (createClusterMarkerContent 1 10 12).colorKey = "partial" ∧
    (createClusterMarkerContent 2 3 12).colorKey = "partial" ∧
    (createClusterMarkerContent 8 10 12).colorKey = "available" :=
  createClusterMarkerContent_classification 1 10 12 (by decide)

/-- Claim C5: at zoom ≥ 14 the render pass is in individual mode and produces
exactly one marker per input station, in input order. -/
theorem addMarkers_individual_mode {α : Type} (stations : List ChargingStation)
    (map : α) (zoom : ℚ) (h : 14 ≤ zoom) :
    addMarkers stations map zoom = stations.map Marker.individual ∧
    (addMarkers stations map zoom).length = stations.length := by
  unfold addMarkers
  rw [if_pos h]
  exact ⟨rfl, List.length_map stations Marker.individual⟩

/-- Witness for C5 at zoom 14 with two stations. -/
theorem addMarkers_individual_mode_witness :
    addMarkers [stA, stC] () 14 = [stA, stC].map Marker.individual ∧
    (addMarkers [stA, stC] () 14).length = ([stA, stC] : List ChargingStation).length :=
  addMarkers_individual_mode [stA, stC] () 14 (by norm_num)

/-- Claim C9: `clusterStations` is deterministic — two calls on equal inputs
return equal cluster lists, in particular the same member lists in the same
order (in this pure embedding the function cannot observe anything besides
its arguments, so this is definitional). -/
theorem clusterStations_deterministic {α : Type} (s1 s2 : List ChargingStation)
    (map : α) (z1 z2 : ℚ) (hs : s1 = s2) (hz : z1 = z2) :
    clusterStations s1 map z1 = clusterStations s2 map z2 ∧
    (clusterStations s1 map z1).map Cluster.stations
      = (clusterStations s2 map z2).map Cluster.stations := by
  subst hs
  subst hz
  exact ⟨rfl, rfl⟩

/-- Witness for C9 on a concrete repeated call. -/
theorem clusterStations_deterministic_witness :
    clusterStations [stA, stB] () 10 = clusterStations [stA, stB] () 10 ∧
    (clusterStations [stA, stB] () 10).map Cluster.stations
      = (clusterStations [stA, stB] () 10).map Cluster.stations :=
  clusterStations_deterministic [stA, stB] [stA, stB] () 10 10 rfl rfl

/-- Claim C10: the clusters returned by `clusterStations` depend only on the
station list and the zoom level — the `map` argument (of any type, like the
unused local `clusterRadiusPixels` constant) never influences the result. -/
theorem clusterStations_ignores_map {α β : Type} (stations : List ChargingStation)
    (map1 : α) (map2 : β) (zoom : ℚ) :
    clusterStations stations map1 zoom = clusterStations stations map2 zoom := rfl

/-- Full specification of the inner scan of `clusterStations` over a list
`l` from state `(c, p)`: the stations absorbed into the cluster form a
sublist `added` of `l` of not-previously-processed stations within the
threshold of the seed, with pairwise-distinct ids; the processed set grows by
exactly their ids; and any station of `l` left unprocessed afterwards is
outside the threshold of the seed. -/
theorem innerFold_spec (s : ChargingStation) (z : ℚ) (l : List ChargingStation) :
    ∀ (c : Cluster) (p : List String),
      ∃ added : List ChargingStation,
        (l.foldl (innerStep s z) (c, p)).1.stations = c.stations ++ added ∧
        (∀ x : String, x ∈ (l.foldl (innerStep s z) (c, p)).2 ↔
          x ∈ p ∨ x ∈ added.map ChargingStation.id) ∧
        added.Sublist l ∧
        (∀ a ∈ added, a.id ∉ p ∧ withinThreshold s a z = true) ∧
        (added.map ChargingStation.id).Nodup ∧
        (∀ w ∈ l, w.id ∉ (l.foldl (innerStep s z) (c, p)).2 →
          withinThreshold s w z = false) := by
  induction l with
  | nil =>
    intro c p
    exact ⟨[], by simp, by simp, List.nil_sublist [], by simp, by simp, by simp⟩
  | cons x xs ih =>
    intro c p
    rw [List.foldl_cons]
    by_cases hx : x.id ∈ p
    · rw [innerStep_skip s z hx]
      obtain ⟨added, h1, h2, h3, h4, h5, h6⟩ := ih c p
      refine ⟨added, h1, h2, h3.cons x, h4, h5, ?_⟩
      intro w hw hnp
      rcases List.mem_cons.mp hw with rfl | hw'
      · exact absurd ((h2 w.id).mpr (Or.inl hx)) hnp
      · exact h6 w hw' hnp
    · cases hwt : withinThreshold s x z with
      | false =>
        rw [innerStep_far s z hx hwt]
        obtain ⟨added, h1, h2, h3, h4, h5, h6⟩ := ih c p
        refine ⟨added, h1, h2, h3.cons x, h4, h5, ?_⟩
        intro w hw hnp
        rcases List.mem_cons.mp hw with rfl | hw'
        · exact hwt
        · exact h6 w hw' hnp
      | true =>
        rw [innerStep_absorb s z hx hwt]
        obtain ⟨added, h1, h2, h3, h4, h5, h6⟩ :=
          ih (Cluster.mk
            (LatLng.mk
              ((c.position.lat * (((c.stations.length : ℚ) + 1) - 1) + x.lat) / ((c.stations.length : ℚ) + 1))
              ((c.position.lng * (((c.stations.length : ℚ) + 1) - 1) + x.lng) / ((c.stations.length : ℚ) + 1)))
            (c.stations ++ [x])
            (c.availableStationCount + (if x.status ≠ "occupied" then 1 else 0)))
          (x.id :: p)
        refine ⟨x :: added, ?_, ?_, h3.cons₂ x, ?_, ?_, ?_⟩
        · rw [h1]
          simp
        · intro y
          rw [h2 y]
          simp only [List.mem_cons, List.map_cons]
          tauto
        · intro a ha
          rcases List.mem_cons.mp ha with rfl | ha'
          · exact ⟨hx, hwt⟩
          · refine ⟨fun hp => (h4 a ha').1 (List.mem_cons_of_mem _ hp), (h4 a ha').2⟩
        · simp only [List.map_cons, List.nodup_cons]
          refine ⟨?_, h5⟩
          intro hmem
          obtain ⟨a, ha, haid⟩ := List.mem_map.mp hmem
          exact (h4 a ha).1 (haid ▸ List.mem_cons_self a.id p)
        · intro w hw hnp
          rcases List.mem_cons.mp hw with rfl | hw'
          · exact absurd ((h2 w.id).mpr (Or.inl (List.mem_cons_self w.id p))) hnp
          · exact h6 w hw' hnp

/-- A property of the cluster state preserved by every inner-loop step is
preserved by the whole inner scan. -/
theorem innerFold_preserves (s : ChargingStation) (z : ℚ) (P : Cluster → Prop)
    (hP : ∀ (c : Cluster) (p : List String) (x : ChargingStation),
      P c → P (innerStep s z (c, p) x).1) :
    ∀ (l : List ChargingStation) (c : Cluster) (p : List String),
      P c → P ((l.foldl (innerStep s z) (c, p)).1) := by
  intro l
  induction l with
  | nil =>
    intro c p h
    simpa using h
  | cons x xs ih =>
    intro c p h
    rw [List.foldl_cons]
    exact ih (innerStep s z (c, p) x).1 (innerStep s z (c, p) x).2 (hP c p x h)

/-- The available-station count of the evolving cluster always equals the
number of its members whose status is not "occupied". -/
theorem innerStep_acount (s : ChargingStation) (z : ℚ) (c : Cluster)
    (p : List String) (x : ChargingStation)
    (h : c.availableStationCount
      = c.stations.countP (fun st => decide (st.status ≠ "occupied"))) :
    (innerStep s z (c, p) x).1.availableStationCount
      = (innerStep s z (c, p) x).1.stations.countP
          (fun st => decide (st.status ≠ "occupied")) := by
  by_cases hx : x.id ∈ p
  · rw [innerStep_skip s z hx]
    exact h
  · cases hwt : withinThreshold s x z with
    | false =>
      rw [innerStep_far s z hx hwt]
      exact h
    | true =>
      rw [innerStep_absorb s z hx hwt]
      simp only [List.countP_append, h]
      by_cases hocc : x.status = "occupied" <;> simp [List.countP_cons, hocc]

/-- The running centroid numerator invariant: on each axis, position times
member count equals the sum of member coordinates. -/
theorem innerStep_centroid (s : ChargingStation) (z : ℚ) (c : Cluster)
    (p : List String) (x : ChargingStation)
    (h : c.position.lat * (c.stations.length : ℚ)
        = (c.stations.map ChargingStation.lat).sum ∧
      c.position.lng * (c.stations.length : ℚ)
        = (c.stations.map ChargingStation.lng).sum) :
    (innerStep s z (c, p) x).1.position.lat
        * ((innerStep s z (c, p) x).1.stations.length : ℚ)
      = ((innerStep s z (c, p) x).1.stations.map ChargingStation.lat).sum ∧
    (innerStep s z (c, p) x).1.position.lng
        * ((innerStep s z (c, p) x).1.stations.length : ℚ)
      = ((innerStep s z (c, p) x).1.stations.map ChargingStation.lng).sum := by
  by_cases hx : x.id ∈ p
  · rw [innerStep_skip s z hx]
    exact h
  · cases hwt : withinThreshold s x z with
    | false =>
      rw [innerStep_far s z hx hwt]
      exact h
    | true =>
      rw [innerStep_absorb s z hx hwt]
      have hne : ((c.stations.length : ℚ) + 1) ≠ 0 := by positivity
      have hlen : (((c.stations ++ [x]).length : ℚ)) = (c.stations.length : ℚ) + 1 := by
        push_cast [List.length_append, List.length_cons, List.length_nil]
        ring
      constructor
      · show (c.position.lat * (((c.stations.length : ℚ) + 1) - 1) + x.lat)
            / ((c.stations.length : ℚ) + 1) * (((c.stations ++ [x]).length : ℚ))
          = ((c.stations ++ [x]).map ChargingStation.lat).sum
        rw [hlen, div_mul_cancel₀ _ hne]
        have hsum : ((c.stations ++ [x]).map ChargingStation.lat).sum
            = (c.stations.map ChargingStation.lat).sum + x.lat := by simp
        rw [hsum, ← h.1]
        ring
      · show (c.position.lng * (((c.stations.length : ℚ) + 1) - 1) + x.lng)
            / ((c.stations.length : ℚ) + 1) * (((c.stations ++ [x]).length : ℚ))
          = ((c.stations ++ [x]).map ChargingStation.lng).sum
        rw [hlen, div_mul_cancel₀ _ hne]
        have hsum : ((c.stations ++ [x]).map ChargingStation.lng).sum
            = (c.stations.map ChargingStation.lng).sum + x.lng := by simp
        rw [hsum, ← h.2]
        ring

/-- Outer-loop reduction: an already-processed station changes nothing. -/
theorem outerStep_skip (all : List ChargingStation) (z : ℚ)
    {cl : List Cluster} {p : List String} {st : ChargingStation}
    (h : st.id ∈ p) :
    outerStep all z (cl, p) st = (cl, p) := by
  simp [outerStep, h]

/-- Outer-loop reduction: an unprocessed station seeds a cluster, runs the
inner scan over the whole input, and appends the finished cluster. -/
theorem outerStep_new (all : List ChargingStation) (z : ℚ)
    {cl : List Cluster} {p : List String} {st : ChargingStation}
    (h : st.id ∉ p) :
    outerStep all z (cl, p) st =
      (cl ++ [(all.foldl (innerStep st z) (seedCluster st, st.id :: p)).1],
       (all.foldl (innerStep st z) (seedCluster st, st.id :: p)).2) := by
  simp [outerStep, h]

/-- `membersJoin` over an appended singleton. -/
theorem membersJoin_append_singleton (cl : List Cluster) (c : Cluster) :
    membersJoin (cl ++ [c]) = membersJoin cl ++ c.stations := by
  simp [membersJoin]

/-- One outer-loop step preserves the clustering invariant; the processed set
only grows and afterwards contains the processed station's id. -/
theorem outerStep_inv (all : List ChargingStation) (z : ℚ) (st : ChargingStation)
    (hst : st ∈ all) (clusters : List Cluster) (p : List String)
    (hinv : ClusterInv all z clusters p) :
    ClusterInv all z (outerStep all z (clusters, p) st).1
        (outerStep all z (clusters, p) st).2 ∧
    (∀ x ∈ p, x ∈ (outerStep all z (clusters, p) st).2) ∧
    st.id ∈ (outerStep all z (clusters, p) st).2 := by
  by_cases hp : st.id ∈ p
  · rw [outerStep_skip all z hp]
    exact ⟨hinv, fun x hx => hx, hp⟩
  · rw [outerStep_new all z hp]
    obtain ⟨added, h1, h2, h3, h4, h5, h6⟩ :=
      innerFold_spec st z all (seedCluster st) (st.id :: p)
    set r1 := (all.foldl (innerStep st z) (seedCluster st, st.id :: p)).1 with hr1
    set r2 := (all.foldl (innerStep st z) (seedCluster st, st.id :: p)).2 with hr2
    have hstations : r1.stations = st :: added := by
      rw [h1]
      simp [seedCluster]
    have hhead : r1.stations.headI = st := by
      rw [hstations]
      rfl
    have haddp : ∀ a ∈ added, a.id ∉ p :=
      fun a ha hp' => (h4 a ha).1 (List.mem_cons_of_mem _ hp')
    have haddne : ∀ a ∈ added, a.id ≠ st.id :=
      fun a ha he => (h4 a ha).1 (he ▸ List.mem_cons_self _ _)
    have h2' : ∀ x : String,
        x ∈ r2 ↔ (x ∈ p ∨ x = st.id ∨ x ∈ added.map ChargingStation.id) := by
      intro x
      rw [h2 x]
      simp only [List.mem_cons]
      tauto
    refine ⟨⟨?_, ?_, ?_, ?_, ?_, ?_, ?_, ?_, ?_, ?_⟩, ?_, ?_⟩
    · -- mem_processed
      intro x
      rw [h2' x, membersJoin_append_singleton]
      simp only [List.map_append, List.mem_append, hstations, List.map_cons,
        List.mem_cons]
      rw [hinv.mem_processed x]
    · -- join_subset
      intro s' hs'
      rw [membersJoin_append_singleton] at hs'
      rcases List.mem_append.mp hs' with h | h
      · exact hinv.join_subset s' h
      · rw [hstations] at h
        rcases List.mem_cons.mp h with rfl | h
        · exact hst
        · exact h3.subset h
    · -- join_nodup
      rw [membersJoin_append_singleton, List.map_append, List.nodup_append]
      refine ⟨hinv.join_nodup, ?_, ?_⟩
      · rw [hstations]
        simp only [List.map_cons, List.nodup_cons]
        refine ⟨?_, h5⟩
        intro hmem
        obtain ⟨a, ha, haid⟩ := List.mem_map.mp hmem
        exact haddne a ha haid
      · intro y hy hy2
        have hyp : y ∈ p := (hinv.mem_processed y).mpr hy
        rw [hstations] at hy2
        simp only [List.map_cons, List.mem_cons, List.mem_map] at hy2
        rcases hy2 with rfl | ⟨a, ha, rfl⟩
        · exact hp hyp
        · exact haddp a ha hyp
    · -- members_ne
      intro c hc
      rcases List.mem_append.mp hc with h | h
      · exact hinv.members_ne c h
      · rw [List.mem_singleton.mp h, hstations]
        simp
    · -- acount
      intro c hc
      rcases List.mem_append.mp hc with h | h
      · exact hinv.acount c h
      · rw [List.mem_singleton.mp h]
        refine innerFold_preserves st z
          (fun c => c.availableStationCount
            = c.stations.countP (fun s' => decide (s'.status ≠ "occupied")))
          (fun c q x hq => innerStep_acount st z c q x hq) all (seedCluster st)
          (st.id :: p) ?_
        by_cases hocc : st.status = "occupied" <;>
          simp [seedCluster, hocc, List.countP_cons]
    · -- centroidLat
      intro c hc
      rcases List.mem_append.mp hc with h | h
      · exact hinv.centroidLat c h
      · rw [List.mem_singleton.mp h]
        exact (innerFold_preserves st z
          (fun c => c.position.lat * (c.stations.length : ℚ)
              = (c.stations.map ChargingStation.lat).sum ∧
            c.position.lng * (c.stations.length : ℚ)
              = (c.stations.map ChargingStation.lng).sum)
          (fun c q x hq => innerStep_centroid st z c q x hq) all (seedCluster st)
          (st.id :: p) (by simp [seedCluster])).1
    · -- centroidLng
      intro c hc
      rcases List.mem_append.mp hc with h | h
      · exact hinv.centroidLng c h
      · rw [List.mem_singleton.mp h]
        exact (innerFold_preserves st z
          (fun c => c.position.lat * (c.stations.length : ℚ)
              = (c.stations.map ChargingStation.lat).sum ∧
            c.position.lng * (c.stations.length : ℚ)
              = (c.stations.map ChargingStation.lng).sum)
          (fun c q x hq => innerStep_centroid st z c q x hq) all (seedCluster st)
          (st.id :: p) (by simp [seedCluster])).2
    · -- seedw
      intro c hc s' hs'
      rcases List.mem_append.mp hc with h | h
      · exact hinv.seedw c h s' hs'
      · rw [List.mem_singleton.mp h] at hs' ⊢
        rw [hhead]
        rw [hstations] at hs'
        rcases List.mem_cons.mp hs' with rfl | hs''
        · exact Or.inl rfl
        · exact Or.inr (h4 s' hs'').2
    · -- seed_pairwise
      rw [List.pairwise_append]
      refine ⟨hinv.seed_pairwise, List.pairwise_singleton _ _, ?_⟩
      intro c hc d hd
      rw [List.mem_singleton.mp hd, hhead]
      exact hinv.maximal c hc st hst hp
    · -- maximal
      intro c hc w hw hnp
      rcases List.mem_append.mp hc with h | h
      · refine hinv.maximal c h w hw ?_
        intro hwp
        exact hnp ((h2' w.id).mpr (Or.inl hwp))
      · rw [List.mem_singleton.mp h, hhead]
        exact h6 w hw hnp
    · -- p grows
      exact fun x hx => (h2' x).mpr (Or.inl hx)
    · -- st.id processed
      exact (h2' st.id).mpr (Or.inr (Or.inl rfl))

/-- Folding the outer loop over any list of input stations preserves the
invariant, only grows the processed set, and processes every station fed to
it. -/
theorem outerFold_inv (all : List ChargingStation) (z : ℚ) :
    ∀ (pending : List ChargingStation) (clusters : List Cluster) (p : List String),
      (∀ st ∈ pending, st ∈ all) →
      ClusterInv all z clusters p →
      ClusterInv all z (pending.foldl (outerStep all z) (clusters, p)).1
          (pending.foldl (outerStep all z) (clusters, p)).2 ∧
      (∀ x ∈ p, x ∈ (pending.foldl (outerStep all z) (clusters, p)).2) ∧
      (∀ st ∈ pending, st.id ∈ (pending.foldl (outerStep all z) (clusters, p)).2) := by
  intro pending
  induction pending with
  | nil =>
    intro clusters p _ hinv
    exact ⟨hinv, fun x hx => hx, by simp⟩
  | cons st rest ih =>
    intro clusters p hsub hinv
    rw [List.foldl_cons]
    obtain ⟨hinv', hmono', hst'⟩ :=
      outerStep_inv all z st (hsub st (List.mem_cons_self st rest)) clusters p hinv
    obtain ⟨hinv'', hmono'', hrest''⟩ :=
      ih (outerStep all z (clusters, p) st).1 (outerStep all z (clusters, p) st).2
        (fun s hs => hsub s (List.mem_cons_of_mem st hs)) hinv'
    refine ⟨hinv'', fun x hx => hmono'' x (hmono' x hx), ?_⟩
    intro s hs
    rcases List.mem_cons.mp hs with rfl | hs'
    · exact hmono'' s.id hst'
    · exact hrest'' s hs'

/-- The complete `clusterStations` run satisfies the clustering invariant and
processes every input station. -/
theorem clusterRun_inv (stations : List ChargingStation) (z : ℚ) :
    ClusterInv stations z (clusterRun stations z).1 (clusterRun stations z).2 ∧
    ∀ st ∈ stations, st.id ∈ (clusterRun stations z).2 := by
  have hbase : ClusterInv stations z [] [] := by
    constructor <;> simp [membersJoin]
  obtain ⟨h1, _, h3⟩ := outerFold_inv stations z stations [] [] (fun _ h => h) hbase
  exact ⟨h1, h3⟩

/-- `clusterStations` is the first component of `clusterRun`, for any value
of the unused `map` argument. -/
theorem clusterStations_eq_run {α : Type} (stations : List ChargingStation)
    (map : α) (zoom : ℚ) :
    clusterStations stations map zoom = (clusterRun stations zoom).1 := rfl

/-- When the input ids are pairwise distinct, the concatenation of all
cluster member lists is a permutation of the input list. -/
theorem clusterRun_join_perm (stations : List ChargingStation) (z : ℚ)
    (hnd : (stations.map ChargingStation.id).Nodup) :
    (membersJoin (clusterRun stations z).1).Perm stations := by
  obtain ⟨hinv, hcov⟩ := clusterRun_inv stations z
  have hJsub : membersJoin (clusterRun stations z).1 ⊆ stations :=
    fun st h => hinv.join_subset st h
  have hJnodup : (membersJoin (clusterRun stations z).1).Nodup :=
    List.Nodup.of_map ChargingStation.id hinv.join_nodup
  have hndl : stations.Nodup := List.Nodup.of_map ChargingStation.id hnd
  have hsub2 : stations ⊆ membersJoin (clusterRun stations z).1 := by
    intro st hst
    have hid : st.id ∈ (clusterRun stations z).2 := hcov st hst
    have hmap : st.id ∈ (membersJoin (clusterRun stations z).1).map ChargingStation.id :=
      (hinv.mem_processed st.id).mp hid
    obtain ⟨m, hm, hmid⟩ := List.mem_map.mp hmap
    have hmst : m ∈ stations := hJsub hm
    have hms : m = st := List.inj_on_of_nodup_map hnd hmst hst hmid
    rwa [hms] at hm
  exact (List.subperm_of_subset hJnodup hJsub).antisymm
    (List.subperm_of_subset hndl hsub2)

/-- If a station occurs exactly once in the concatenation of all member
lists, then exactly one cluster of the list contains it. -/
theorem countP_clusters_of_count_one (st : ChargingStation) :
    ∀ cls : List Cluster, (membersJoin cls).count st = 1 →
      cls.countP (fun c => decide (st ∈ c.stations)) = 1 := by
  intro cls
  induction cls with
  | nil =>
    intro h
    simp [membersJoin] at h
  | cons c cs ih =>
    intro h
    have hJ : membersJoin (c :: cs) = c.stations ++ membersJoin cs := by
      simp [membersJoin]
    rw [hJ, List.count_append] at h
    rw [List.countP_cons]
    by_cases hmem : st ∈ c.stations
    · have hpos : c.stations.count st ≠ 0 :=
        fun h0 => (List.count_eq_zero.mp h0) hmem
      have hcs : (membersJoin cs).count st = 0 := by omega
      have hnotin : st ∉ membersJoin cs := List.count_eq_zero.mp hcs
      have hcount0 : cs.countP (fun c' => decide (st ∈ c'.stations)) = 0 := by
        rw [List.countP_eq_zero]
        intro c' hc'
        simp only [decide_eq_true_eq]
        intro hmm
        exact hnotin
          (List.mem_flatten_of_mem (List.mem_map_of_mem Cluster.stations hc') hmm)
      simp [hmem, hcount0]
    · have hc0 : c.stations.count st = 0 := List.count_eq_zero.mpr hmem
      rw [hc0, Nat.zero_add] at h
      simp [hmem, ih h]

/-- Claim C2: with pairwise-distinct ids, clustering partitions the input —
the concatenated member lists are a permutation of the input, every cluster
is non-empty, every input station lies in exactly one cluster's member list,
and the member counts add up to the input count. -/
theorem clusterStations_partition {α : Type} (stations : List ChargingStation)
    (map : α) (zoom : ℚ) (hnd : (stations.map ChargingStation.id).Nodup) :
    (∀ c ∈ clusterStations stations map zoom, c.stations ≠ []) ∧
    (((clusterStations stations map zoom).map Cluster.stations).flatten).Perm stations ∧
    (∀ st ∈ stations,
      (clusterStations stations map zoom).countP
        (fun c => decide (st ∈ c.stations)) = 1) ∧
    ((clusterStations stations map zoom).map (fun c => c.stations.length)).sum
      = stations.length := by
  obtain ⟨hinv, hcov⟩ := clusterRun_inv stations zoom
  have hperm := clusterRun_join_perm stations zoom hnd
  rw [clusterStations_eq_run]
  have hJ : ((clusterRun stations zoom).1.map Cluster.stations).flatten
      = membersJoin (clusterRun stations zoom).1 := rfl
  refine ⟨fun c hc => hinv.members_ne c hc, by rw [hJ]; exact hperm, ?_, ?_⟩
  · intro st hst
    have hndl : stations.Nodup := List.Nodup.of_map ChargingStation.id hnd
    have hstJ : (membersJoin (clusterRun stations zoom).1).count st = 1 := by
      rw [hperm.count_eq]
      exact List.count_eq_one_of_mem hndl hst
    exact countP_clusters_of_count_one st (clusterRun stations zoom).1 hstJ
  · have hlen := hperm.length_eq
    rw [← hlen]
    simp only [membersJoin, List.length_flatten, List.map_map]
    rfl

unseal Rat.add Rat.mul Rat.sub Rat.inv Rat.ofScientific in
/-- Witness for C2 on three concrete stations at zoom 10. -/
theorem clusterStations_partition_witness :
    (∀ c ∈ clusterStations [stA, stB, stC] () 10, c.stations ≠ []) ∧
    ((((clusterStations [stA, stB, stC] () 10).map Cluster.stations).flatten).Perm
      [stA, stB, stC]) ∧
    (∀ st ∈ [stA, stB, stC],
      (clusterStations [stA, stB, stC] () 10).countP
        (fun c => decide (st ∈ c.stations)) = 1) ∧
    ((clusterStations [stA, stB, stC] () 10).map (fun c => c.stations.length)).sum
      = ([stA, stB, stC] : List ChargingStation).length :=
  clusterStations_partition [stA, stB, stC] () 10 (by decide)

/-- Claim C6: the final centroid of every produced cluster is the arithmetic
mean of its members' coordinates, independently per axis, in exact
arithmetic. -/
theorem clusterStations_centroid_mean {α : Type} (stations : List ChargingStation)
    (map : α) (zoom : ℚ) (c : Cluster) (hc : c ∈ clusterStations stations map zoom) :
    c.position.lat = (c.stations.map ChargingStation.lat).sum / (c.stations.length : ℚ) ∧
    c.position.lng = (c.stations.map ChargingStation.lng).sum / (c.stations.length : ℚ) := by
  rw [clusterStations_eq_run] at hc
  obtain ⟨hinv, _⟩ := clusterRun_inv stations zoom
  have hne : c.stations ≠ [] := hinv.members_ne c hc
  have hlen : ((c.stations.length : ℚ)) ≠ 0 :=
    Nat.cast_ne_zero.mpr (fun h => hne (List.length_eq_zero.mp h))
  constructor
  · rw [eq_div_iff hlen]
    exact hinv.centroidLat c hc
  · rw [eq_div_iff hlen]
    exact hinv.centroidLng c hc

unseal Rat.add Rat.mul Rat.sub Rat.inv Rat.ofScientific in
/-- Witness for C6 on the two-member cluster produced from `stA`, `stB`. -/
theorem clusterStations_centroid_mean_witness :
    clAB.position.lat = (clAB.stations.map ChargingStation.lat).sum
        / (clAB.stations.length : ℚ) ∧
    clAB.position.lng = (clAB.stations.map ChargingStation.lng).sum
        / (clAB.stations.length : ℚ) :=
  clusterStations_centroid_mean [stA, stB, stC] () 10 clAB (by decide)

/-- Claim C4: in cluster mode (zoom < 14) a produced cluster is rendered as a
marker iff its available-station count — the number of members whose status
is not "occupied" — is positive; fully-occupied clusters yield no marker. -/
theorem addMarkers_cluster_filter {α : Type} (stations : List ChargingStation)
    (map : α) (zoom : ℚ) (hz : zoom < 14) (c : Cluster)
    (hc : c ∈ clusterStations stations map zoom) :
    (Marker.clusterMarker c ∈ addMarkers stations map zoom ↔
      0 < c.availableStationCount) ∧
    c.availableStationCount
      = c.stations.countP (fun st => decide (st.status ≠ "occupied")) := by
  obtain ⟨hinv, _⟩ := clusterRun_inv stations zoom
  have hac := hinv.acount c (by rwa [clusterStations_eq_run] at hc)
  refine ⟨?_, hac⟩
  unfold addMarkers
  rw [if_neg (not_le.mpr hz)]
  by_cases hnil : stations.length = 0
  · exfalso
    have hempty : stations = [] := List.length_eq_zero.mp hnil
    rw [hempty] at hc
    have hcl : clusterStations ([] : List ChargingStation) map zoom = [] := rfl
    rw [hcl] at hc
    exact List.not_mem_nil c hc
  · rw [if_neg hnil]
    constructor
    · intro hmem
      obtain ⟨c', hc', heq⟩ := List.mem_map.mp hmem
      have hcc : c' = c := Marker.clusterMarker.inj heq
      rw [hcc] at hc'
      have hpred := (List.mem_filter.mp hc').2
      simp only [bne_iff_ne, ne_eq] at hpred
      omega
    · intro hpos
      refine List.mem_map_of_mem Marker.clusterMarker (List.mem_filter.mpr ⟨hc, ?_⟩)
      simp only [bne_iff_ne, ne_eq]
      omega

unseal Rat.add Rat.mul Rat.sub Rat.inv Rat.ofScientific in
/-- Witness for C4 on the singleton cluster of `stC` at zoom 10. -/
theorem addMarkers_cluster_filter_witness :
    (Marker.clusterMarker clC ∈ addMarkers [stA, stB, stC] () 10 ↔
      0 < clC.availableStationCount) ∧
    clC.availableStationCount
      = clC.stations.countP (fun st => decide (st.status ≠ "occupied")) :=
  addMarkers_cluster_filter [stA, stB, stC] () 10 (by norm_num) clC (by decide)

/-- Squared distance to oneself is zero. -/
theorem dist2_self (aLat aLng : ℚ) : dist2 aLat aLng aLat aLng = 0 := by
  unfold dist2
  ring

/-- Squared distance is symmetric. -/
theorem dist2_comm (aLat aLng bLat bLng : ℚ) :
    dist2 aLat aLng bLat bLng = dist2 bLat bLng aLat aLng := by
  unfold dist2
  ring

/-- Unpacking a positive `withinThreshold` test. -/
theorem within_dist2 {s m : ChargingStation} {z : ℚ}
    (h : withinThreshold s m z = true) :
    0 < distanceThreshold z ∧
    dist2 s.lat s.lng m.lat m.lng < distanceThreshold z ^ 2 := by
  rw [withinThreshold] at h
  exact of_decide_eq_true h

/-- Unpacking a negative `withinThreshold` test when the threshold is
positive. -/
theorem within_false_dist2 {s m : ChargingStation} {z : ℚ}
    (h : withinThreshold s m z = false) (ht : 0 < distanceThreshold z) :
    distanceThreshold z ^ 2 ≤ dist2 s.lat s.lng m.lat m.lng := by
  rw [withinThreshold] at h
  have hnot := of_decide_eq_false h
  rcases not_and_or.mp hnot with h' | h'
  · exact absurd ht h'
  · exact not_lt.mp h'

/-- Two points strictly within `t` of a common center are strictly within
`2t` of each other (squared form, by Cauchy–Schwarz). -/
theorem dist2_triangle_sq (sLat sLng aLat aLng bLat bLng t : ℚ)
    (ha : dist2 sLat sLng aLat aLng < t ^ 2) (hb : dist2 sLat sLng bLat bLng < t ^ 2) :
    dist2 aLat aLng bLat bLng < 4 * t ^ 2 := by
  unfold dist2 at *
  nlinarith [sq_nonneg ((aLat - sLat) * (bLng - sLng) - (aLng - sLng) * (bLat - sLat)),
    sq_nonneg ((aLat - sLat) * (bLat - sLat) + (aLng - sLng) * (bLng - sLng) + t ^ 2),
    sq_nonneg (aLat - sLat), sq_nonneg (aLng - sLng), sq_nonneg (bLat - sLat),
    sq_nonneg (bLng - sLng)]

/-- Claim C8: with pairwise-distinct ids, the number of clusters at zoom 10
is at most the number of clusters at zoom 14 on the same station list.  The
proof maps every zoom-10 cluster seed into the zoom-14 cluster containing it
and shows this map injective: two zoom-10 seeds are at squared distance
≥ (0.036)², yet any two members of one zoom-14 cluster are at squared
distance < 4 · (0.012)². -/
theorem clusterStations_zoom_monotone {α : Type} (stations : List ChargingStation)
    (map : α) (hnd : (stations.map ChargingStation.id).Nodup) :
    (clusterStations stations map 10).length
      ≤ (clusterStations stations map 14).length := by
  obtain ⟨hinvA, _⟩ := clusterRun_inv stations 10
  obtain ⟨hinvB, _⟩ := clusterRun_inv stations 14
  have hpermB := clusterRun_join_perm stations 14 hnd
  rw [clusterStations_eq_run, clusterStations_eq_run]
  set A := (clusterRun stations 10).1 with hA
  set B := (clusterRun stations 14).1 with hB
  have ht10 : (0 : ℚ) < distanceThreshold 10 := by norm_num [distanceThreshold]
  have ht14pos : (0 : ℚ) < distanceThreshold 14 := by norm_num [distanceThreshold]
  have hgex : ∀ i : Fin A.length, ∃ j : Fin B.length,
      ((A.get i).stations.headI) ∈ (B.get j).stations := by
    intro i
    have hci : A.get i ∈ A := List.get_mem A i.1 i.2
    have hne := hinvA.members_ne (A.get i) hci
    have hu : (A.get i).stations.headI ∈ (A.get i).stations := headI_mem hne
    have huJ : (A.get i).stations.headI ∈ membersJoin A :=
      List.mem_flatten_of_mem (List.mem_map_of_mem Cluster.stations hci) hu
    have hust : (A.get i).stations.headI ∈ stations := hinvA.join_subset _ huJ
    have huB : (A.get i).stations.headI ∈ membersJoin B := hpermB.mem_iff.mpr hust
    obtain ⟨l, hl, hul⟩ := List.mem_flatten.mp huB
    obtain ⟨c, hc, rfl⟩ := List.mem_map.mp hl
    obtain ⟨j, hj⟩ := List.get_of_mem hc
    refine ⟨j, ?_⟩
    rw [hj]
    exact hul
  choose g hg using hgex
  have hinj : Function.Injective g := by
    intro i i' hgi
    by_contra hne
    have hAIpair := hinvA.seed_pairwise
    rw [List.pairwise_iff_get] at hAIpair
    have hlow : distanceThreshold 10 ^ 2
        ≤ dist2 (A.get i).stations.headI.lat (A.get i).stations.headI.lng
            (A.get i').stations.headI.lat (A.get i').stations.headI.lng := by
      rcases Ne.lt_or_lt hne with hlt | hlt
      · exact within_false_dist2 (hAIpair i i' hlt) ht10
      · rw [dist2_comm]
        exact within_false_dist2 (hAIpair i' i hlt) ht10
    have hj1 : (A.get i).stations.headI ∈ (B.get (g i')).stations := by
      rw [← hgi]
      exact hg i
    have hj2 : (A.get i').stations.headI ∈ (B.get (g i')).stations := hg i'
    have hcB : B.get (g i') ∈ B := List.get_mem B (g i').1 (g i').2
    have hsw := hinvB.seedw (B.get (g i')) hcB
    have hd1 : dist2 (B.get (g i')).stations.headI.lat (B.get (g i')).stations.headI.lng
        (A.get i).stations.headI.lat (A.get i).stations.headI.lng
          < distanceThreshold 14 ^ 2 := by
      rcases hsw _ hj1 with h | h
      · rw [h, dist2_self]
        positivity
      · exact (within_dist2 h).2
    have hd2 : dist2 (B.get (g i')).stations.headI.lat (B.get (g i')).stations.headI.lng
        (A.get i').stations.headI.lat (A.get i').stations.headI.lng
          < distanceThreshold 14 ^ 2 := by
      rcases hsw _ hj2 with h | h
      · rw [h, dist2_self]
        positivity
      · exact (within_dist2 h).2
    have htri := dist2_triangle_sq _ _ _ _ _ _ (distanceThreshold 14) hd1 hd2
    have hnum : 4 * distanceThreshold 14 ^ 2 ≤ distanceThreshold 10 ^ 2 := by
      norm_num [distanceThreshold]
    linarith
  have hcard := Fintype.card_le_of_injective g hinj
  simpa using hcard

unseal Rat.add Rat.mul Rat.sub Rat.inv Rat.ofScientific in
/-- Witness for C8 on three concrete stations. -/
theorem clusterStations_zoom_monotone_witness :
    (clusterStations [stA, stB, stC] () 10).length
      ≤ (clusterStations [stA, stB, stC] () 14).length :=
  clusterStations_zoom_monotone [stA, stB, stC] () (by decide)

unseal Rat.add Rat.mul Rat.sub Rat.inv Rat.ofScientific in
/-- Counterexample to claim C7 as stated: in `addMarkers [stA, stB, stC] () 10`
the two-member cluster marker (members `stA`, `stB`) invokes no external click
callback at all (the claim predicates the callback is invoked with the member
list), and on the singleton cluster marker of `stC` the broadcast notification
carries the member list `[stC]`, not the same payload as the callback (the
single station `stC`). -/
theorem markerClick_claim_counterexample :
    Marker.clusterMarker clAB ∈ addMarkers [stA, stB, stC] () 10 ∧
    1 < clAB.stations.length ∧
    (markerClick (Marker.clusterMarker clAB)).callback = none ∧
    Marker.clusterMarker clC ∈ addMarkers [stA, stB, stC] () 10 ∧
    clC.stations.length = 1 ∧
    (markerClick (Marker.clusterMarker clC)).callback
      = some (ClickPayload.station stC) ∧
    (markerClick (Marker.clusterMarker clC)).broadcast
      = ClickPayload.stationList [stC] ∧
    (markerClick (Marker.clusterMarker clC)).broadcast
      ≠ ClickPayload.station stC := by
  decide

/-- Claim C7 (amended): for every rendered marker, an individual-mode marker's
click invokes the external callback with its station and broadcasts a
notification carrying that station; a cluster marker's click always broadcasts
a notification carrying the cluster's member list, invokes the callback with
the single member exactly when the cluster has one member, and invokes no
callback when it has more than one member. -/
theorem markerClick_spec {α : Type} (stations : List ChargingStation) (map : α)
    (zoom : ℚ) (mk : Marker) (hmk : mk ∈ addMarkers stations map zoom) :
    (∃ st : ChargingStation, mk = Marker.individual st ∧
      (markerClick mk).callback = some (ClickPayload.station st) ∧
      (markerClick mk).broadcast = ClickPayload.station st) ∨
    (∃ c : Cluster, mk = Marker.clusterMarker c ∧
      (markerClick mk).broadcast = ClickPayload.stationList c.stations ∧
      (c.stations.length = 1 →
        (markerClick mk).callback = some (ClickPayload.station c.stations.headI)) ∧
      (c.stations.length ≠ 1 → (markerClick mk).callback = none)) := by
  cases mk with
  | individual st => exact Or.inl ⟨st, rfl, rfl, rfl⟩
  | clusterMarker c =>
    refine Or.inr ⟨c, rfl, rfl, ?_, ?_⟩
    · intro h1
      simp [markerClick, h1]
    · intro h1
      simp [markerClick, h1]

unseal Rat.add Rat.mul Rat.sub Rat.inv Rat.ofScientific in
/-- Witness for the amended C7 on the two-member cluster marker. -/
theorem markerClick_spec_witness :
    (∃ st : ChargingStation, Marker.clusterMarker clAB = Marker.individual st ∧
      (markerClick (Marker.clusterMarker clAB)).callback
        = some (ClickPayload.station st) ∧
      (markerClick (Marker.clusterMarker clAB)).broadcast
        = ClickPayload.station st) ∨
    (∃ c : Cluster, Marker.clusterMarker clAB = Marker.clusterMarker c ∧
      (markerClick (Marker.clusterMarker clAB)).broadcast
        = ClickPayload.stationList c.stations ∧
      (c.stations.length = 1 →
        (markerClick (Marker.clusterMarker clAB)).callback
          = some (ClickPayload.station c.stations.headI)) ∧
      (c.stations.length ≠ 1 →
        (markerClick (Marker.clusterMarker clAB)).callback = none)) :=
  markerClick_spec [stA, stB, stC] () 10 (Marker.clusterMarker clAB) (by decide)
